import Mathlib

/-!
# Verification of the retrieval pipeline in `src/app.py`

This file gives a shallow embedding of the semantic-search retrieval
pipeline (`retrieve_top_n` in `src/app.py`) and proves/refutes the frozen
claims about it.

Modelling conventions:
* Python floats (similarity scores, embedding coordinates) are modelled as
  exact rationals `ℚ`.
* Python exceptions raised by the external capabilities (translator,
  embedding model, FAISS index) are modelled by `Except String`; the
  pipeline itself is a total Lean function, which captures "no exception
  escapes the pipeline boundary".
* The external capabilities are parameters (in the source, `model`,
  `index` and `data` are parameters of `retrieve_top_n` and `translator`
  is a module global; any of them is `None` when startup failed, hence the
  `Option`s).
* To make observable which capabilities a run invokes, the embedded
  pipeline additionally returns a trace of the external calls it made, in
  order.  This is an instrumentation of the source, not a change of its
  result value.
* `ast.literal_eval` and `json.loads` are stdlib capabilities; they are
  embedded as executable recursive-descent parsers for the fragment the
  stored payloads live in (flat-or-nested dicts with string keys and
  string / integer / boolean / null values, single- or double-quoted
  strings without escape sequences, whitespace = spaces).  The two parsers
  share their shape and differ exactly where Python literals and JSON
  differ: JSON forbids single-quoted strings and spells the constants
  `true` / `false` / `null` where Python has `True` / `False` / `None`.
* Batteries marks `Rat.mul`/`Rat.add` `@[irreducible]`, so the
  two-decimal formatting of a score is computed with integer arithmetic on
  `Rat.num`/`Rat.den` (round-half-even at hundredths, which is what
  Python's `f"{x:.2f}"` performs on exactly representable values); the
  bridge lemmas below relate it to the usual field operations on `ℚ`.
-/

/-- A Python value as produced by `ast.literal_eval` / `json.loads` on the
stored payload fragment: strings, integers, booleans, `None`/`null`, and
dictionaries with string keys (entry order preserved, duplicates kept in
parse order). -/
inductive PyVal where
  | str (s : String)
  | int (n : Int)
  | bool (b : Bool)
  | none
  | dict (entries : List (String × PyVal))

/-- Is this value a Python `dict` (the `isinstance(prompt_dict, dict)`
check of `src/app.py:84`)? -/
def PyVal.isDict : PyVal → Bool
  | .dict _ => true
  | _ => false

/-- The Python `d.get(key, default)` on a parsed dict: the value of the last entry
with the given key (later duplicate keys override earlier ones in a
Python dict literal), or the default. -/
def dictGet (entries : List (String × PyVal)) (key : String) (default : PyVal) : PyVal :=
  match entries.reverse.find? (fun kv => kv.1 = key) with
  | some kv => kv.2
  | Option.none => default

/-- One cell of the `prompt` column of `prompts.csv` as pandas hands it to
the pipeline: either a string, or some non-string value (e.g. NaN), which
`isinstance(prompt_content, str)` at `src/app.py:72` rejects. -/
inductive Cell where
  | str (s : String)
  | other

/- Character constants used by the payload parsers, named for
readability. -/

/-- The character `{`. -/
def braceL : Char := Char.ofNat 123

/-- The character `}`. -/
def braceR : Char := Char.ofNat 125

/-- The character `'`. -/
def squote : Char := Char.ofNat 39

/-- The character `"`. -/
def dquote : Char := Char.ofNat 34

/-- The character `\`. -/
def bslash : Char := Char.ofNat 92

/-- Where the Python-literal syntax and the JSON syntax of the payload
fragment differ: whether single-quoted strings are admitted, and the
spelling of the three constants. -/
structure SynCfg where
  singleQuote : Bool
  trueTok : String
  falseTok : String
  noneTok : String

/-- Python-literal syntax (`ast.literal_eval`). -/
def pyCfg : SynCfg := ⟨true, "True", "False", "None"⟩

/-- JSON syntax (`json.loads`). -/
def jsonCfg : SynCfg := ⟨false, "true", "false", "null"⟩

/-- Drop leading spaces. -/
def skipWs : List Char → List Char
  | ' ' :: rest => skipWs rest
  | cs => cs

/-- Consume characters up to (and including) the closing quote `q`;
escape sequences and embedded quotes are outside the payload fragment. -/
def takeStr (q : Char) : List Char → Option (List Char × List Char)
  | [] => Option.none
  | c :: cs =>
    if c = q then some ([], cs)
    else if c = bslash then Option.none
    else match takeStr q cs with
      | some (s, rest) => some (c :: s, rest)
      | Option.none => Option.none

/-- Parse a string literal: double-quoted always, single-quoted only when
the syntax admits it. -/
def parseStringLit (cfg : SynCfg) : List Char → Option (String × List Char)
  | [] => Option.none
  | c :: cs =>
    if c = dquote then
      match takeStr dquote cs with
      | some (s, rest) => some (String.mk s, rest)
      | Option.none => Option.none
    else if c = squote ∧ cfg.singleQuote then
      match takeStr squote cs with
      | some (s, rest) => some (String.mk s, rest)
      | Option.none => Option.none
    else Option.none

/-- Numeric value of a decimal digit. -/
def digitVal (c : Char) : Option Nat :=
  if '0' ≤ c ∧ c ≤ '9' then some (c.toNat - '0'.toNat) else Option.none

/-- Accumulate further decimal digits. -/
def parseDigitsAux : List Char → Nat → Nat × List Char
  | [], acc => (acc, [])
  | c :: cs, acc =>
    match digitVal c with
    | some d => parseDigitsAux cs (10 * acc + d)
    | Option.none => (acc, c :: cs)

/-- Parse a nonempty run of decimal digits. -/
def parseDigits : List Char → Option (Nat × List Char)
  | [] => Option.none
  | c :: cs =>
    match digitVal c with
    | some d => some (parseDigitsAux cs d)
    | Option.none => Option.none

/-- Parse an (optionally negated) integer literal. -/
def parseIntLit : List Char → Option (PyVal × List Char)
  | c :: cs =>
    if c = '-' then
      match parseDigits cs with
      | some (n, rest) => some (.int (-(n : Int)), rest)
      | Option.none => Option.none
    else
      match parseDigits (c :: cs) with
      | some (n, rest) => some (.int (n : Int), rest)
      | Option.none => Option.none
  | [] => Option.none

/-- Consume exactly the given token. -/
def dropToken : List Char → List Char → Option (List Char)
  | [], cs => some cs
  | t :: ts, c :: cs => if c = t then dropToken ts cs else Option.none
  | _ :: _, [] => Option.none

/-- Parse an atom: a string, one of the three constants, or an integer. -/
def parseAtom (cfg : SynCfg) (cs : List Char) : Option (PyVal × List Char) :=
  match parseStringLit cfg cs with
  | some (s, rest) => some (.str s, rest)
  | Option.none =>
    match dropToken cfg.trueTok.toList cs with
    | some rest => some (.bool true, rest)
    | Option.none =>
      match dropToken cfg.falseTok.toList cs with
      | some rest => some (.bool false, rest)
      | Option.none =>
        match dropToken cfg.noneTok.toList cs with
        | some rest => some (PyVal.none, rest)
        | Option.none => parseIntLit cs

mutual

/-- Parse a value of the payload fragment (fuel-indexed recursive
descent; the fuel only bounds nesting and is in practice the input
length). -/
def parseVal (cfg : SynCfg) : Nat → List Char → Option (PyVal × List Char)
  | 0, _ => Option.none
  | Nat.succ fuel, cs =>
    match skipWs cs with
    | c :: rest =>
      if c = braceL then
        match skipWs rest with
        | c2 :: rest2 =>
          if c2 = braceR then some (.dict [], rest2)
          else
            match parseEntries cfg fuel (c2 :: rest2) with
            | some (es, rest3) =>
              match skipWs rest3 with
              | c4 :: rest4 => if c4 = braceR then some (.dict es, rest4) else Option.none
              | [] => Option.none
            | Option.none => Option.none
        | [] => Option.none
      else parseAtom cfg (c :: rest)
    | [] => Option.none

/-- Parse a nonempty comma-separated list of `"key": value` entries. -/
def parseEntries (cfg : SynCfg) : Nat → List Char → Option (List (String × PyVal) × List Char)
  | 0, _ => Option.none
  | Nat.succ fuel, cs =>
    match parseStringLit cfg (skipWs cs) with
    | Option.none => Option.none
    | some (k, rest) =>
      match skipWs rest with
      | c :: rest2 =>
        if c = ':' then
          match parseVal cfg fuel rest2 with
          | Option.none => Option.none
          | some (v, rest3) =>
            match skipWs rest3 with
            | c4 :: rest4 =>
              if c4 = ',' then
                match parseEntries cfg fuel rest4 with
                | some (es, rest5) => some ((k, v) :: es, rest5)
                | Option.none => Option.none
              else some ([(k, v)], rest3)
            | [] => some ([(k, v)], rest3)
        else Option.none
      | [] => Option.none

end

/-- Run a parser on a whole string: the parse must consume everything but
trailing spaces, as `ast.literal_eval` and `json.loads` do. -/
def runParse (cfg : SynCfg) (s : String) : Option PyVal :=
  match parseVal cfg (s.length + 1) s.toList with
  | some (v, rest) => if skipWs rest = [] then some v else Option.none
  | Option.none => Option.none

/-- Embedding of `ast.literal_eval` on the payload fragment. -/
def literal_eval (s : String) : Option PyVal := runParse pyCfg s

/-- Embedding of `json.loads` on the payload fragment. -/
def json_loads (s : String) : Option PyVal := runParse jsonCfg s

/-- The parsing cascade of `src/app.py:71-82`: try `ast.literal_eval`
first and fall back to `json.loads` only when it fails; `Option.none`
models the `continue` after both parses failed. -/
def parsePayload (s : String) : Option PyVal :=
  match literal_eval s with
  | some v => some v
  | Option.none => json_loads s

/-- Round-half-even of the fraction `n / d` (for `0 < d`) to an integer,
computed with integer arithmetic only.  `q` is the floor of `n / d` and
`r` the remainder, so the fractional part is `r / d`; ties (`2 * r = d`)
go to the even neighbour, as in Python's float formatting. -/
def rheFrac (n d : Int) : Int :=
  let q := n.fdiv d
  let r := n - q * d
  if 2 * r < d then q
  else if d < 2 * r then q + 1
  else if q % 2 = 0 then q else q + 1

/-- The value of score `x` rounded to two decimal places, in integer
hundredths: the numeric content of Python's `f"{x:.2f}"`
(`src/app.py:95`). -/
def mp100 (x : ℚ) : Int := rheFrac (100 * x.num) (x.den : Int)

/-- Render a nonnegative amount of hundredths as a two-decimal string
(`"10050" ↦ "100.50"`). -/
def digits2 (a : Nat) : String :=
  toString (a / 100) ++ "." ++ (if a % 100 < 10 then "0" else "") ++ toString (a % 100)

/-- Python's `f"{x:.2f}"`: sign, then the absolute rounded value with
exactly two decimal places.  (Like Python, a negative value rounding to
zero renders as `"-0.00"`.) -/
def format2 (x : ℚ) : String :=
  (if x.num < 0 then "-" else "") ++ digits2 (mp100 x).natAbs

/-- Follows the spec's words, not the source: `match_percentage =
clamp(score * 100, 0, 100)`, formatted to two decimal places with a
trailing `%` suffix. -/
def specMatchPercentage (s : ℚ) : String :=
  format2 (min (max (s * 100) 0) 100) ++ "%"

/-- The output unit assembled at `src/app.py:89-96`; field names follow
the result dictionary (`ReadLevel` stands for the `"Read Level"` key). -/
structure ResultRecord where
  Title : PyVal
  Author : PyVal
  Labels : PyVal
  ReadLevel : PyVal
  Hyperlink : PyVal
  Match_Percentage : String

/-- Build the result dictionary from the parsed payload and the raw score
(`src/app.py:88-96`): recognized keys with their sentinel defaults, and
the score formatted to two decimals. -/
def buildRecord (entries : List (String × PyVal)) (distance : ℚ) : ResultRecord :=
  { Title := dictGet entries "Title" (.str "No Title")
    Author := dictGet entries "Author" (.str "No Author")
    Labels := dictGet entries "Labels" (.str "No Labels")
    ReadLevel := dictGet entries "Read Level" (.str "No Read level")
    Hyperlink := dictGet entries "Hyperlink" (.str "No Hyperlink")
    Match_Percentage := format2 distance }

/-- pandas `data.iloc[idx]` on the `prompt` column: negative indices
address from the end; an out-of-bounds index raises `IndexError`, which
the per-candidate `except` of `src/app.py:98` turns into a skip, hence
`Option.none`. -/
def iloc (rows : List Cell) (idx : Int) : Option Cell :=
  let j : Int := if idx < 0 then idx + rows.length else idx
  if 0 ≤ j ∧ j < rows.length then rows.get? j.toNat else Option.none

/-- Parse one payload string and build its record (`src/app.py:70-96`):
skip when the parse cascade fails or the parsed value is not a dict. -/
def recordFromContent (prompt_content : String) (distance : ℚ) : Option ResultRecord :=
  match parsePayload prompt_content with
  | some (PyVal.dict entries) => some (buildRecord entries distance)
  | _ => Option.none

/-- Process one `(idx, score)` candidate of the search result
(`src/app.py:64-99`): fetch the row, reject non-string cells
(`isinstance` check), parse and build.  Every failure is a skip, never an
exception. -/
def materializeOne (data : List Cell) (idx : Int) (score : ℚ) : Option ResultRecord :=
  match iloc data idx with
  | some (Cell.str s) => recordFromContent s score
  | some Cell.other => Option.none
  | Option.none => Option.none

/-- The result-assembly loop of `src/app.py:63-101`: one optional record
per candidate, in candidate order. -/
def materialize (data : List Cell) (pairs : List (Int × ℚ)) : List ResultRecord :=
  pairs.filterMap (fun p => materializeOne data p.1 p.2)

/-- The `googletrans.Translator` capability: `detect` yields the language
code of `translator.detect(q).lang`, `translate q src dest` the text of
`translator.translate(q, src=src, dest=dest)`; `Except.error` models a
raised exception. -/
structure Translator where
  detect : String → Except String String
  translate : String → String → String → Except String String

/-- The capability `model.encode(...)`: text to embedding vector, or an exception. -/
abbrev Model := String → Except String (List ℚ)

/-- The capability `index.search(vector, top_n)`: the `(position, score)` pairs of
`zip(indices[0], distances[0])` in the order FAISS returns them, or an
exception. -/
abbrev VectorIndex := List ℚ → Nat → Except String (List (Int × ℚ))

/-- One external-capability invocation, for the instrumentation trace.
`encode` records the returned vector (`Option.none` when the call
raised); `search` records the vector handed to the index. -/
inductive Call where
  | detect (q : String)
  | translate (q : String)
  | encode (q : String) (result : Option (List ℚ))
  | search (v : List ℚ) (k : Nat)
  deriving DecidableEq

/-- The detect-and-translate stage of `src/app.py:44-53`: returns the
query to embed and the calls made.  A raised `detect` leaves the query
untranslated and skips `translate`; a detected `'en'` also skips
`translate`; a raised `translate` falls back to the original query. -/
def translate_stage (translator : Translator) (user_query : String) : String × List Call :=
  match translator.detect user_query with
  | Except.error _ => (user_query, [Call.detect user_query])
  | Except.ok detected_language =>
    if detected_language ≠ "en" then
      match translator.translate user_query detected_language "en" with
      | Except.ok t => (t, [Call.detect user_query, Call.translate user_query])
      | Except.error _ => (user_query, [Call.detect user_query, Call.translate user_query])
    else (user_query, [Call.detect user_query])

/-- Embedding of `retrieve_top_n(user_query, top_n, model, index, data)` of
`src/app.py:35-101`, with the module-global `translator` passed
explicitly.  The `Option`s are the startup state: the guard at line 37
(`not all([model, index, data is not None, translator])`) returns `[]`
when any capability is `None`.  The second component is the trace of
external calls (instrumentation only). -/
def retrieve_top_n (translator : Option Translator) (user_query : String) (top_n : Nat)
    (model : Option Model) (index : Option VectorIndex) (data : Option (List Cell)) :
    List ResultRecord × List Call :=
  match model, index, data, translator with
  | some model, some index, some data, some translator =>
    if user_query = "" then ([], [])
    else
      let ts := translate_stage translator user_query
      let translated_query := ts.1
      match model translated_query with
      | Except.error _ => ([], ts.2 ++ [Call.encode translated_query Option.none])
      | Except.ok query_embedding =>
        match index query_embedding top_n with
        | Except.error _ =>
          ([], ts.2 ++ [Call.encode translated_query (some query_embedding),
                        Call.search query_embedding top_n])
        | Except.ok pairs =>
          (materialize data pairs,
           ts.2 ++ [Call.encode translated_query (some query_embedding),
                    Call.search query_embedding top_n])
  | _, _, _, _ => ([], [])

/-! ## Concrete fixtures

Capabilities and data used by the closed counterexamples and witnesses.
Fractional constants are written `Rat.divInt` because Batteries'
`@[irreducible]` field operations on `ℚ` do not reduce in the kernel,
while `Rat.divInt` does. -/

/-- Exact product of two rationals computed on numerators/denominators
(kernel-reducible; provably the field product, see `ratMul_eq`). -/
def ratMul (a b : ℚ) : ℚ := Rat.divInt (a.num * b.num) ((a.den : Int) * (b.den : Int))

/-- Exact sum of two rationals computed on numerators/denominators
(kernel-reducible; provably the field sum, see `ratAdd_eq`). -/
def ratAdd (a b : ℚ) : ℚ :=
  Rat.divInt (a.num * (b.den : Int) + b.num * (a.den : Int)) ((a.den : Int) * (b.den : Int))

/-- Exact inner product of two rational vectors (see `dot_eq`). -/
def dot : List ℚ → List ℚ → ℚ
  | a :: v, b :: w => ratAdd (ratMul a b) (dot v w)
  | _, _ => 0

/-- A translator whose detection always answers English and whose
translation is the identity. -/
def tr0 : Translator := ⟨fun _ => Except.ok "en", fun q _ _ => Except.ok q⟩

/-- An embedder that returns the (unnormalized, squared norm 4) vector
`[2, 0]` for every query. -/
def model0 : Model := fun _ => Except.ok [2, 0]

/-- An embedder that raises on every invocation. -/
def modelErr : Model := fun _ => Except.error "boom"

/-- A one-item record store whose payload is the Python literal of the
mapping with `Title` `'A'`. -/
def data0 : List Cell := [Cell.str "\x7b'Title': 'A'\x7d"]

/-- An index that reports one hit at position 0 with raw score
`201 / 2 = 100.5` (e.g. a squared L2 distance). -/
def index1 : VectorIndex := fun _ _ => Except.ok [((0 : Int), Rat.divInt 201 2)]

/-- An index holding the single stored vector `[2, 0]` that honestly
scores by exact inner product with the query vector. -/
def index2 : VectorIndex := fun v _ => Except.ok [((0 : Int), dot v [2, 0])]

/-- An index holding exactly one item, which returns as many hits as
exist (at most `k`), per the spec's search contract; score 1. -/
def index8 : VectorIndex := fun _ k =>
  Except.ok (if k = 0 then [] else [((0 : Int), (1 : ℚ))])

/-- Two candidates with non-increasing scores `2` and `1/2`. -/
def pairs0 : List (Int × ℚ) := [((0 : Int), (2 : ℚ)), ((0 : Int), Rat.divInt 1 2)]

/-- The Python-literal serialization of the mapping `m0`. -/
def pyPayload : String := "\x7b'Title': 'A', 'Read Level': None\x7d"

/-- A JSON serialization of the same mapping `m0`; `null` makes it
invalid as a Python literal. -/
def jsonPayload : String := "\x7b\"Title\": \"A\", \"Read Level\": null\x7d"

/-- The mapping both `pyPayload` and `jsonPayload` denote. -/
def m0 : List (String × PyVal) := [("Title", PyVal.str "A"), ("Read Level", PyVal.none)]

/-- The record the pipeline builds from `data0`'s payload at raw score
`201 / 2`. -/
def rec0 : ResultRecord :=
  { Title := PyVal.str "A"
    Author := PyVal.str "No Author"
    Labels := PyVal.str "No Labels"
    ReadLevel := PyVal.str "No Read level"
    Hyperlink := PyVal.str "No Hyperlink"
    Match_Percentage := "100.50" }

/-- Round-half-even on `ℚ`, phrased with `Int.floor` and `Int.fract` for
proofs; `rheFrac` computes it (see `rheFrac_eq`). -/
def rhe (x : ℚ) : Int :=
  if Int.fract x < 1/2 then ⌊x⌋
  else if 1/2 < Int.fract x then ⌊x⌋ + 1
  else if ⌊x⌋ % 2 = 0 then ⌊x⌋ else ⌊x⌋ + 1

/-! ## Helper lemmas -/

theorem ratMul_eq (a b : ℚ) : ratMul a b = a * b := by
  rw [ratMul, Rat.divInt_eq_div]
  push_cast
  rw [← div_mul_div_comm, Rat.num_div_den, Rat.num_div_den]

theorem ratAdd_eq (a b : ℚ) : ratAdd a b = a + b := by
  rw [ratAdd, Rat.divInt_eq_div]
  have ha : ((a.den : ℚ)) ≠ 0 := Nat.cast_ne_zero.mpr a.den_nz
  have hb : ((b.den : ℚ)) ≠ 0 := Nat.cast_ne_zero.mpr b.den_nz
  push_cast
  conv_rhs => rw [← Rat.num_div_den a, ← Rat.num_div_den b]
  rw [div_add_div _ _ ha hb]
  ring_nf

theorem dot_eq (v w : List ℚ) : dot v w = (List.zipWith (fun a b => a * b) v w).sum := by
  induction v generalizing w with
  | nil => cases w <;> simp [dot]
  | cons a v ih =>
    cases w with
    | nil => simp [dot]
    | cons b w => simp [dot, ratMul_eq, ratAdd_eq, ih]

theorem rheFrac_eq (n : Int) (d : Nat) (hd : 0 < d) :
    rheFrac n (d : Int) = rhe ((n : ℚ) / (d : ℚ)) := by
  have hd0 : (0 : Int) < (d : Int) := by exact_mod_cast hd
  have hdq : (0 : ℚ) < (d : ℚ) := by exact_mod_cast hd
  have hqe : n.fdiv (d : Int) = n / (d : Int) := Int.fdiv_eq_ediv n (le_of_lt hd0)
  have hfl : ⌊(n : ℚ) / (d : ℚ)⌋ = n / (d : Int) := Rat.floor_intCast_div_natCast n d
  have hfr : Int.fract ((n : ℚ) / (d : ℚ))
      = ((n - n.fdiv (d : Int) * (d : Int) : Int) : ℚ) / (d : ℚ) := by
    rw [Int.fract, hfl, ← hqe]
    push_cast
    field_simp
    ring
  have h1 : ∀ r : Int, (((r : Int) : ℚ) / (d : ℚ) < 1/2) ↔ (2 * r < (d : Int)) := by
    intro r
    have : (((r : Int) : ℚ) / (d : ℚ) < 1/2) ↔ ((2 * r : Int) : ℚ) < ((d : Int) : ℚ) := by
      rw [div_lt_div_iff₀ hdq (by norm_num)]
      push_cast
      constructor <;> intro <;> linarith
    rw [this, Int.cast_lt]
  have h2 : ∀ r : Int, ((1:ℚ)/2 < ((r : Int) : ℚ) / (d : ℚ)) ↔ ((d : Int) < 2 * r) := by
    intro r
    have : ((1:ℚ)/2 < ((r : Int) : ℚ) / (d : ℚ)) ↔ ((d : Int) : ℚ) < ((2 * r : Int) : ℚ) := by
      rw [div_lt_div_iff₀ (by norm_num) hdq]
      push_cast
      constructor <;> intro <;> linarith
    rw [this, Int.cast_lt]
  rw [rheFrac, rhe, hfr, hfl, ← hqe]
  rw [if_congr (h1 _) rfl rfl, if_congr (h2 _) rfl rfl]

theorem floor_le_rhe (x : ℚ) : ⌊x⌋ ≤ rhe x := by
  rw [rhe]; split_ifs <;> omega

theorem rhe_le_floor_add_one (x : ℚ) : rhe x ≤ ⌊x⌋ + 1 := by
  rw [rhe]; split_ifs <;> omega

theorem rhe_mono {x y : ℚ} (h : x ≤ y) : rhe x ≤ rhe y := by
  rcases lt_or_eq_of_le (Int.floor_mono h) with hf | hf
  · calc rhe x ≤ ⌊x⌋ + 1 := rhe_le_floor_add_one x
      _ ≤ ⌊y⌋ := by omega
      _ ≤ rhe y := floor_le_rhe y
  · have hfr : Int.fract x ≤ Int.fract y := by
      simp only [Int.fract]
      rw [hf] at *
      linarith
    rw [rhe, rhe, hf]
    split_ifs <;> first | omega | linarith

theorem mp100_eq (x : ℚ) : mp100 x = rhe (100 * x) := by
  rw [mp100, rheFrac_eq _ _ x.den_pos]
  congr 1
  push_cast
  rw [mul_div_assoc, Rat.num_div_den]

theorem mp100_mono {x y : ℚ} (h : x ≤ y) : mp100 x ≤ mp100 y := by
  rw [mp100_eq, mp100_eq]
  exact rhe_mono (by linarith)

theorem mp_of_materializeOne {data : List Cell} {i : Int} {s : ℚ} {rec : ResultRecord}
    (h : materializeOne data i s = some rec) : rec.Match_Percentage = format2 s := by
  rw [materializeOne] at h
  split at h
  · rw [recordFromContent] at h
    split at h
    · cases h
      rfl
    · cases h
  · cases h
  · cases h

theorem materialize_scores (data : List Cell) (pairs : List (Int × ℚ)) :
    ∃ sub : List (Int × ℚ), sub.Sublist pairs ∧
      (materialize data pairs).map (fun r => r.Match_Percentage)
        = (sub.map Prod.snd).map format2 := by
  induction pairs with
  | nil => exact ⟨[], by simp, by simp [materialize]⟩
  | cons p ps ih =>
    obtain ⟨sub, hs, he⟩ := ih
    cases hp : materializeOne data p.1 p.2 with
    | none =>
      refine ⟨sub, hs.cons p, ?_⟩
      have hm : materialize data (p :: ps) = materialize data ps := by
        simp only [materialize, List.filterMap_cons, hp]
      rw [hm, he]
    | some r =>
      refine ⟨p :: sub, hs.cons₂ p, ?_⟩
      have hm : materialize data (p :: ps) = r :: materialize data ps := by
        simp only [materialize, List.filterMap_cons, hp]
      rw [hm]
      simp only [List.map_cons]
      rw [mp_of_materializeOne hp, he]

theorem translate_stage_calls (tr : Translator) (q : String) (c : Call)
    (h : c ∈ (translate_stage tr q).2) :
    (∃ s, c = Call.detect s) ∨ (∃ s, c = Call.translate s) := by
  rw [translate_stage] at h
  split at h
  · simp at h
    exact Or.inl ⟨q, h⟩
  · split at h
    · split at h <;> (simp at h; rcases h with h | h)
      · exact Or.inl ⟨q, h⟩
      · exact Or.inr ⟨q, h⟩
      · exact Or.inl ⟨q, h⟩
      · exact Or.inr ⟨q, h⟩
    · simp at h
      exact Or.inl ⟨q, h⟩

theorem translate_stage_en (tr : Translator) (q : String)
    (h : tr.detect q = Except.ok "en") :
    translate_stage tr q = (q, [Call.detect q]) := by
  rw [translate_stage, h]
  simp

/-! ## Claims -/

/-- C4: for every falsy/empty query string, `retrieve_top_n` returns the
empty list without invoking the translator, the embedder, or the vector
index — the result is `[]` and the external-call trace is empty, whatever
the loaded capabilities are. -/
theorem C4_empty_query (translator : Option Translator) (top_n : Nat)
    (model : Option Model) (index : Option VectorIndex) (data : Option (List Cell)) :
    retrieve_top_n translator "" top_n model index data = ([], []) := by
  cases model <;> cases index <;> cases data <;> cases translator <;> rfl

/-- C9: if any of the embedding model, vector index, record store, or
translator failed to initialize (is `None`), then for every query — empty
or not — `retrieve_top_n` returns the empty list (degraded mode) rather
than raising; no external call is made. -/
theorem C9_degraded (translator : Option Translator) (q : String) (top_n : Nat)
    (model : Option Model) (index : Option VectorIndex) (data : Option (List Cell))
    (h : model = Option.none ∨ index = Option.none ∨ data = Option.none
        ∨ translator = Option.none) :
    retrieve_top_n translator q top_n model index data = ([], []) := by
  cases model <;> cases index <;> cases data <;> cases translator <;>
    first
      | rfl
      | (rcases h with h | h | h | h <;> exact absurd h (by simp))

/-- Witness for C9: the fully degraded state on a nonempty query. -/
theorem C9_degraded_witness :
    retrieve_top_n Option.none "hello" 5 Option.none Option.none Option.none = ([], []) :=
  C9_degraded Option.none "hello" 5 Option.none Option.none Option.none (Or.inl rfl)

/-- C1 counterexample: a concrete run (the payload parses into a mapping,
raw score `201/2 = 100.5`) in which the emitted `Match_Percentage` is
`"100.50"` — the raw score formatted to two decimals — while the claimed
`clamp(score*100, 0, 100)` with a `%` suffix would read `"100.00%"`; the
numeric value the field encodes, 100.50, lies outside [0, 100]. -/
theorem C1_counterexample :
    ((retrieve_top_n (some tr0) "books" 5 (some model0) (some index1) (some data0)).1.map
        (fun r => r.Match_Percentage) = ["100.50"]) ∧
    specMatchPercentage (Rat.divInt 201 2) = "100.00%" ∧
    ("100.50" : String) ≠ "100.00%" ∧
    mp100 (Rat.divInt 201 2) = 10050 ∧ (10000 : Int) < 10050 := by
  refine ⟨by decide, ?_, by decide, by decide, by decide⟩
  rw [specMatchPercentage]
  have h : (Rat.divInt 201 2) * 100 = 10050 := by
    rw [Rat.divInt_eq_div]; norm_num
  rw [h, max_eq_left (by norm_num), min_eq_right (by norm_num)]
  decide

/-- C1 (amended): for every `(idx, score)` candidate that yields a
record, `Match_Percentage` is the raw score formatted to exactly two
decimal places (`format2`) — with no `* 100` scaling, no clamping to
[0, 100], and no `%` suffix — so the numeric value it encodes is the raw
score rounded to hundredths and is not confined to [0.00, 100.00]. -/
theorem C1_match_percentage_raw (data : List Cell) (idx : Int) (score : ℚ)
    (rec : ResultRecord) (h : materializeOne data idx score = some rec) :
    rec.Match_Percentage = format2 score :=
  mp_of_materializeOne h

/-- Witness for C1 (amended) at the concrete fixture `data0`, raw score
`201/2`. -/
theorem C1_match_percentage_raw_witness :
    rec0.Match_Percentage = format2 (Rat.divInt 201 2) :=
  C1_match_percentage_raw data0 0 (Rat.divInt 201 2) rec0 (by rfl)

/-- C2 counterexample: the embedder returns `[2, 0]` (squared norm 4, not
a unit vector); the pipeline hands exactly `[2, 0]` — unnormalized — to
the index search, and the honest inner-product index over the stored
vector `[2, 0]` yields raw score 4, which is not a cosine similarity in
[0.0, 1.0]; the emitted record reads `"4.00"`. -/
theorem C2_counterexample :
    (retrieve_top_n (some tr0) "books" 5 (some model0) (some index2) (some data0)).2
      = [Call.detect "books", Call.encode "books" (some [2, 0]), Call.search [2, 0] 5] ∧
    dot [2, 0] [2, 0] = 4 ∧ ¬ (dot [2, 0] [2, 0] = 1) ∧
    ((retrieve_top_n (some tr0) "books" 5 (some model0) (some index2) (some data0)).1.map
        (fun r => r.Match_Percentage) = ["4.00"]) ∧
    ¬ ((4 : ℚ) ≤ 1) :=
  ⟨by decide, by decide, by decide, by decide, by decide⟩

/-- C2 (amended): the pipeline performs no normalization of the embedder
output — any vector handed to the index search is exactly the vector the
embedder returned (reshape and float32 cast only), so the raw scores are
whatever metric the index computes, with no [0.0, 1.0] guarantee. -/
theorem C2_no_normalization (tr : Translator) (q : String) (n : Nat)
    (model : Model) (index : VectorIndex) (data : List Cell) (v : List ℚ) (k : Nat)
    (h : Call.search v k
        ∈ (retrieve_top_n (some tr) q n (some model) (some index) (some data)).2) :
    Call.encode (translate_stage tr q).1 (some v)
      ∈ (retrieve_top_n (some tr) q n (some model) (some index) (some data)).2 := by
  by_cases hq : q = ""
  · subst hq
    simp [retrieve_top_n] at h
  · rw [retrieve_top_n] at h ⊢
    simp only [if_neg hq] at h ⊢
    rcases hm : model (translate_stage tr q).1 with msg | emb <;>
      simp only [hm] at h ⊢
    · rw [List.mem_append] at h
      rcases h with h | h
      · rcases translate_stage_calls tr q _ h with ⟨s, hs⟩ | ⟨s, hs⟩ <;> cases hs
      · simp at h
    · rcases hi : index emb n with msg2 | pairs <;> simp only [hi] at h ⊢ <;>
        (rw [List.mem_append] at h ⊢
         rcases h with h | h
         · rcases translate_stage_calls tr q _ h with ⟨s, hs⟩ | ⟨s, hs⟩ <;> cases hs
         · simp at h
           rcases h with ⟨hv, hk⟩
           subst hv
           exact Or.inr (by simp))

/-- Witness for C2 (amended): in the concrete run, the vector `[2, 0]`
searched by the index is the one the embedder returned. -/
theorem C2_no_normalization_witness :
    Call.encode (translate_stage tr0 "books").1 (some [2, 0])
      ∈ (retrieve_top_n (some tr0) "books" 5 (some model0) (some index2) (some data0)).2 :=
  C2_no_normalization tr0 "books" 5 model0 index2 data0 [2, 0] 5 (by decide)

/-- C3: if the index search delivers its `(position, score)` pairs
best-first (scores non-increasing, the spec's contract for the external
search primitive), the emitted `Match_Percentage` values are, in list
order, the two-decimal renderings of a subsequence of those scores — the
pipeline performs no re-sorting — and their numeric values (`mp100`, the
encoded hundredths) are non-increasing across the result list. -/
theorem C3_rank_order (data : List Cell) (pairs : List (Int × ℚ))
    (h : List.Chain' (· ≥ ·) (pairs.map Prod.snd)) :
    ∃ scores : List ℚ, scores.Sublist (pairs.map Prod.snd) ∧
      (materialize data pairs).map (fun r => r.Match_Percentage) = scores.map format2 ∧
      List.Chain' (fun a b => mp100 b ≤ mp100 a) scores := by
  obtain ⟨sub, hs, he⟩ := materialize_scores data pairs
  refine ⟨sub.map Prod.snd, hs.map _, he, ?_⟩
  have hp : List.Pairwise (· ≥ ·) (pairs.map Prod.snd) :=
    List.chain'_iff_pairwise.mp h
  have hp2 : List.Pairwise (· ≥ ·) (sub.map Prod.snd) :=
    List.Pairwise.sublist (hs.map _) hp
  have hp3 : List.Pairwise (fun a b => mp100 b ≤ mp100 a) (sub.map Prod.snd) :=
    hp2.imp (fun hab => mp100_mono hab)
  exact hp3.chain'

/-- Witness for C3 at the concrete non-increasing score list `[2, 1/2]`. -/
theorem C3_rank_order_witness :
    List.Chain' (· ≥ ·) (pairs0.map Prod.snd) ∧
    (∃ scores : List ℚ, scores.Sublist (pairs0.map Prod.snd) ∧
      (materialize data0 pairs0).map (fun r => r.Match_Percentage) = scores.map format2 ∧
      List.Chain' (fun a b => mp100 b ≤ mp100 a) scores) :=
  ⟨List.Chain.cons (by decide) List.Chain.nil,
   C3_rank_order data0 pairs0 (List.Chain.cons (by decide) List.Chain.nil)⟩

/-- C5: if the embedder raises on its invocation for this request, or the
index search raises, `retrieve_top_n` returns the empty list — never a
partial or garbage result; and since the embedded pipeline is a total
function, no exception escapes the pipeline boundary. -/
theorem C5_failure_empty (tr : Translator) (q : String) (n : Nat)
    (model : Model) (index : VectorIndex) (data : List Cell)
    (h : (∃ msg, model (translate_stage tr q).1 = Except.error msg) ∨
         (∃ emb msg, model (translate_stage tr q).1 = Except.ok emb
            ∧ index emb n = Except.error msg)) :
    (retrieve_top_n (some tr) q n (some model) (some index) (some data)).1 = [] := by
  by_cases hq : q = ""
  · subst hq
    simp [retrieve_top_n]
  · rw [retrieve_top_n]
    simp only [if_neg hq]
    rcases h with ⟨msg, hm⟩ | ⟨emb, msg, hm, hi⟩
    · simp only [hm]
    · simp only [hm, hi]

/-- Witness for C5: an embedder that raises on every invocation yields
`[]`. -/
theorem C5_failure_empty_witness :
    (retrieve_top_n (some tr0) "books" 5 (some modelErr) (some index1) (some data0)).1 = [] :=
  C5_failure_empty tr0 "books" 5 modelErr index1 data0 (Or.inl ⟨"boom", rfl⟩)

/-- C6: the payload is parsed with the language-literal parse first and
with JSON only when that fails; a candidate whose payload fails both
parses, or parses to a non-dict, is skipped (no record, no exception —
`materializeOne` is total and yields `Option.none`), so the result list
can be shorter than the number of candidates. -/
theorem C6_parse_fallback (s : String) (data : List Cell) (pairs : List (Int × ℚ))
    (idx : Int) (sc : ℚ) :
    (∀ v, literal_eval s = some v → parsePayload s = some v) ∧
    (literal_eval s = Option.none → parsePayload s = json_loads s) ∧
    (iloc data idx = some (Cell.str s) → parsePayload s = Option.none →
      materializeOne data idx sc = Option.none) ∧
    (iloc data idx = some (Cell.str s) →
      (∀ v, parsePayload s = some v → v.isDict = false) →
      materializeOne data idx sc = Option.none) ∧
    (materialize data pairs).length ≤ pairs.length := by
  refine ⟨?_, ?_, ?_, ?_, List.length_filterMap_le _ _⟩
  · intro v hv
    simp only [parsePayload, hv]
  · intro hv
    simp only [parsePayload, hv]
  · intro hiloc hp
    simp only [materializeOne, hiloc, recordFromContent, hp]
  · intro hiloc hv
    simp only [materializeOne, hiloc, recordFromContent]
    cases hp : parsePayload s with
    | none => rfl
    | some v =>
      cases v with
      | dict entries => exact absurd (hv _ hp) (by simp [PyVal.isDict])
      | str s2 => rfl
      | int n2 => rfl
      | bool b2 => rfl
      | none => rfl

/-- Witness for C6: `"42"` literal-parses (to a non-dict, hence skipped),
`"oops"` fails both parses and is skipped. -/
theorem C6_parse_fallback_witness :
    parsePayload "42" = some (PyVal.int 42) ∧
    materializeOne [Cell.str "oops"] 0 1 = Option.none ∧
    materializeOne [Cell.str "42"] 0 1 = Option.none := by
  refine ⟨?_, ?_, ?_⟩
  · exact (C6_parse_fallback "42" [] [] 0 1).1 (PyVal.int 42) (by rfl)
  · exact (C6_parse_fallback "oops" [Cell.str "oops"] [] 0 1).2.2.1 (by rfl) (by rfl)
  · refine (C6_parse_fallback "42" [Cell.str "42"] [] 0 1).2.2.2.1 (by rfl) ?_
    intro v hv
    have h42 : parsePayload "42" = some (PyVal.int 42) := by rfl
    rw [h42] at hv
    rw [← Option.some.inj hv]
    rfl

/-- C7: two payloads that parse (through the literal-then-JSON cascade)
to the same mapping `m` — e.g. its Python-literal serialization and a
JSON-only serialization of it — produce field-for-field identical
`ResultRecord` output at the same score, namely the record built from
`m`. -/
theorem C7_parse_fallback_idempotent (p1 p2 : String) (m : List (String × PyVal)) (sc : ℚ)
    (h1 : parsePayload p1 = some (PyVal.dict m)) (h2 : parsePayload p2 = some (PyVal.dict m)) :
    recordFromContent p1 sc = recordFromContent p2 sc ∧
    recordFromContent p1 sc = some (buildRecord m sc) := by
  constructor <;> simp only [recordFromContent, h1, h2]

/-- Witness for C7: `pyPayload` (a Python literal) and `jsonPayload`
(valid only under JSON — `literal_eval` rejects it) denote the same
mapping `m0` and yield identical records. -/
theorem C7_parse_fallback_idempotent_witness :
    literal_eval jsonPayload = Option.none ∧
    json_loads jsonPayload = some (PyVal.dict m0) ∧
    recordFromContent pyPayload 1 = recordFromContent jsonPayload 1 :=
  ⟨by rfl, by rfl,
    (C7_parse_fallback_idempotent pyPayload jsonPayload m0 1 (by rfl) (by rfl)).1⟩

/-- C8: under the spec's contract for the external search primitive —
`index.search` returns `min(ntotal, top_n)` pairs when the index holds
`ntotal` items (as many as exist, no padding) — the pipeline returns at
most one record per actually stored item: at most `ntotal` records and at
most `top_n`, with no error (the pipeline is total). -/
theorem C8_fewer_items (tr : Translator) (q : String) (n : Nat)
    (model : Model) (index : VectorIndex) (data : List Cell)
    (hc : ∀ v k pairs, index v k = Except.ok pairs → pairs.length = min data.length k) :
    (retrieve_top_n (some tr) q n (some model) (some index) (some data)).1.length
      ≤ data.length ∧
    (retrieve_top_n (some tr) q n (some model) (some index) (some data)).1.length ≤ n := by
  by_cases hq : q = ""
  · subst hq
    simp [retrieve_top_n]
  · rw [retrieve_top_n]
    simp only [if_neg hq]
    rcases hm : model (translate_stage tr q).1 with msg | emb <;> simp only [hm]
    · simp
    · rcases hi : index emb n with m2 | ps <;> simp only [hi]
      · simp
      · have hl : (materialize data ps).length ≤ ps.length :=
          List.length_filterMap_le _ _
        have he := hc emb n ps hi
        constructor
        · exact le_trans hl (by rw [he]; exact Nat.min_le_left _ _)
        · exact le_trans hl (by rw [he]; exact Nat.min_le_right _ _)

/-- Witness for C8: a one-item index queried with `top_n = 5` yields at
most one record and no error. -/
theorem C8_fewer_items_witness :
    (retrieve_top_n (some tr0) "books" 5 (some model0) (some index8) (some data0)).1.length
      ≤ data0.length ∧
    (retrieve_top_n (some tr0) "books" 5 (some model0) (some index8) (some data0)).1.length
      ≤ 5 :=
  C8_fewer_items tr0 "books" 5 model0 index8 data0 (by
    intro v k ps h
    simp only [index8] at h
    have hd : data0.length = 1 := rfl
    cases k with
    | zero =>
      simp at h
      rw [h]
      simp
    | succ k =>
      simp at h
      rw [← h, hd]
      simp)

/-- C10: when the detected language of the query is `'en'`, the
translator's `translate` operation is never invoked and the embedder
receives the original query string unchanged. -/
theorem C10_english_no_translate (om : Option Model) (oi : Option VectorIndex)
    (od : Option (List Cell)) (tr : Translator) (q : String) (n : Nat)
    (h : tr.detect q = Except.ok "en") :
    (∀ s, Call.translate s ∉ (retrieve_top_n (some tr) q n om oi od).2) ∧
    (∀ s r, Call.encode s r ∈ (retrieve_top_n (some tr) q n om oi od).2 → s = q) := by
  cases om with
  | none => simp [retrieve_top_n]
  | some model =>
  cases oi with
  | none => simp [retrieve_top_n]
  | some index =>
  cases od with
  | none => simp [retrieve_top_n]
  | some data =>
  by_cases hq : q = ""
  · subst hq
    simp [retrieve_top_n]
  · rw [retrieve_top_n]
    simp only [if_neg hq, translate_stage_en tr q h]
    rcases hm : model q with msg | emb <;> simp only [hm]
    · constructor
      · intro s
        simp
      · intro s r hr
        simp at hr
        exact hr.1
    · rcases hi : index emb n with m2 | ps <;> simp only [hi] <;> constructor
      · intro s
        simp
      · intro s r hr
        simp at hr
        exact hr.1
      · intro s
        simp
      · intro s r hr
        simp at hr
        exact hr.1

/-- Witness for C10: with detection answering `'en'`, no translate call
appears in the concrete run's trace. -/
theorem C10_english_no_translate_witness :
    Call.translate "books"
      ∉ (retrieve_top_n (some tr0) "books" 5 (some model0) (some index1) (some data0)).2 :=
  (C10_english_no_translate (some model0) (some index1) (some data0) tr0 "books" 5
    (by rfl)).1 "books"
